import Mathlib

/-!
Verification of the ebw device-passthrough configurator.

Shallow embedding of the core components:
* the GRUB single-file bootloader backend (`src/core/bootloader/grub.rs`),
* the systemd-boot per-entry backend (`src/core/bootloader/systemd_boot.rs`),
* the change log / rollback engine (`src/core/state.rs`),
* the device binder (`src/core/vfio.rs`),
* the backup helper (`src/utils/mod.rs`).

Files are modelled as association lists from paths to contents; the GRUB
configuration file is modelled as its list of lines (the two regexes the
backend uses are multiline-anchored and their `.` does not match newlines,
so both match within a single line).  Ambient effects whose outcome the
control flow merely observes (the result of one undo attempt during
rollback) are passed in as an explicit function.
-/

set_option linter.unusedVariables false

/-- Double-quote character (kept out of literals). -/
def dqChar : Char := Char.ofNat 34

/-- Single-quote character (kept out of literals). -/
def sqChar : Char := Char.ofNat 39

/-- The quote alternatives accepted by the GRUB regexes' `["']` class. -/
def isQuote (c : Char) : Bool := c == dqChar || c == sqChar

/-- `s.starts_with(pre)` on Rust strings. -/
def strStartsWith (s pre : String) : Bool := pre.data.isPrefixOf s.data

/-- Is a character not the `=` sign? -/
def nonEq (c : Char) : Bool := !(c == '=')

/-- Identity of a parameter: `param.split('=').next().unwrap_or(&param)`,
the substring before the first `=` (the whole token when there is none). -/
def keyOf (p : String) : String := String.mk (p.data.takeWhile nonEq)

/-! ## Tokenisation: Rust's `str::split_whitespace` -/

/-- Accumulator-passing splitter over characters; `acc` holds the current
token reversed.  Mirrors `split_whitespace`: maximal runs of
non-whitespace characters, empty tokens never produced. -/
def tokensAux : List Char → List Char → List (List Char)
  | [], acc => if acc.isEmpty then [] else [acc.reverse]
  | c :: cs, acc =>
    if c.isWhitespace then
      if acc.isEmpty then tokensAux cs [] else acc.reverse :: tokensAux cs []
    else tokensAux cs (c :: acc)

/-- `split_whitespace` over a string. -/
def splitWs (s : String) : List String := (tokensAux s.data []).map String.mk

/-- Collecting tokens into a `HashSet<String>`: first occurrence kept,
duplicates dropped.  (Iteration order of the model list is irrelevant to
the backend's output, which sorts before serialising.) -/
def dedupList (l : List String) : List String :=
  l.foldl (fun acc p => if p ∈ acc then acc else acc ++ [p]) []

/-! ## The parameter reconciler (`GrubConfig::add_parameters` / `remove_parameters` loops) -/

/-- `HashSet::insert`: returns whether the value was newly inserted. -/
def insertParam (l : List String) (param : String) : List String × Bool :=
  if param ∈ l then (l, false) else (l ++ [param], true)

/-- One iteration of the `add_parameters` loop: drop any parameter that
starts with `KEY=` or equals `KEY`, insert the new parameter, and update
the `changed` flag via `insert(param) || len != initial_len`. -/
def addStep (st : List String × Bool) (param : String) : List String × Bool :=
  let key := keyOf param
  let keyWithEq := key ++ "="
  let initialLen := st.1.length
  let afterRetain := st.1.filter (fun p => !(strStartsWith p keyWithEq) && !(p == key))
  let ins := insertParam afterRetain param
  (ins.1, st.2 || (ins.2 || !(ins.1.length == initialLen)))

/-- The whole `for param_str in params_to_add` loop over the current set. -/
def addParamsSet (current requested : List String) : List String × Bool :=
  requested.foldl addStep (current, false)

/-- One iteration of the `remove_parameters` loop: retain only parameters
that match neither the exact string nor the key; `changed` is set when the
set strictly shrank. -/
def removeStep (st : List String × Bool) (toRemove : String) : List String × Bool :=
  let keyToRemove := keyOf toRemove
  let initialLen := st.1.length
  let cur := st.1.filter (fun p => !(p == toRemove) && !(keyOf p == keyToRemove))
  (cur, st.2 || decide (cur.length < initialLen))

/-- The whole `for param_to_remove_str in params_to_remove` loop. -/
def removeParamsSet (current requested : List String) : List String × Bool :=
  requested.foldl removeStep (current, false)

/-- Lexicographic comparison of character lists by code point; on UTF-8
data this coincides with Rust's byte-lexicographic `String` ordering. -/
def charListLe : List Char → List Char → Bool
  | [], _ => true
  | _ :: _, [] => false
  | a :: as, b :: bs => if a = b then charListLe as bs else decide (a < b)

/-- The string ordering used by `final_params.sort()`. -/
def strLe (a b : String) : Bool := charListLe a.data b.data

/-- `strLe` as a relation, for the sorting lemmas. -/
def strLeRel (a b : String) : Prop := strLe a b = true

instance : DecidableRel strLeRel := fun a b => inferInstanceAs (Decidable (_ = true))

/-- `final_params.sort()`: Rust's lexicographic sort on strings. -/
def sortParams (l : List String) : List String := l.insertionSort strLeRel

/-- `Vec::join(" ")`. -/
def joinSpace : List String → String
  | [] => ""
  | [s] => s
  | s :: rest => s ++ " " ++ joinSpace rest

/-- Serialisation of the final parameter set: sort, then space-join. -/
def serializeParams (l : List String) : String := joinSpace (sortParams l)

namespace GrubConfig

/-- `GRUB_CMDLINE_LINUX_DEFAULT` as characters. -/
def grubVarName : List Char := "GRUB_CMDLINE_LINUX_DEFAULT".data

/-- Front of the write regex on one line:
`^\s*GRUB_CMDLINE_LINUX_DEFAULT\s*=\s*["']`.  Returns the consumed prefix
(up to and including the opening quote), the opening quote, and the rest
of the line.  (The read regex shares this textual prefix but never
compiles — see `read_grub_cmdline`.) -/
def parseAssign (l : List Char) : Option (List Char × Char × List Char) :=
  let w1 := l.takeWhile (fun c => c.isWhitespace)
  let r1 := l.dropWhile (fun c => c.isWhitespace)
  if grubVarName.isPrefixOf r1 then
    let r2 := r1.drop grubVarName.length
    let w2 := r2.takeWhile (fun c => c.isWhitespace)
    let r3 := r2.dropWhile (fun c => c.isWhitespace)
    match r3 with
    | '=' :: r4 =>
      let w3 := r4.takeWhile (fun c => c.isWhitespace)
      let r5 := r4.dropWhile (fun c => c.isWhitespace)
      match r5 with
      | q :: rest => if isQuote q then some (w1 ++ grubVarName ++ w2 ++ ('=' :: w3) ++ [q], q, rest) else none
      | [] => none
    | _ => none
  else none

/-- The errors the GRUB backend raises on the modelled paths. -/
inductive GrubError where
  /-- `Regex::new` on the read pattern fails: the pattern at grub.rs:34
  ends in the backreference `\1`, which the Rust `regex` crate does not
  support, so compilation errors and the code maps it to an
  `io::Error` with message `Regex error: …`. -/
  | regexBackreference
  /-- `write_grub_cmdline` with a missing `/etc/default/grub`
  (grub.rs:48-50). -/
  | grubFileNotFound
deriving DecidableEq, Repr

/-- `read_grub_cmdline` (grub.rs:26-44), over the config file (`none` =
missing).  A missing file reads as empty parameters.  For an existing
file the function reads the content and then calls `Regex::new` on
`(?m)^\s*GRUB_CMDLINE_LINUX_DEFAULT\s*=\s*(["'])(.*?)\1`; that pattern
ends in the backreference `\1`, which the Rust `regex` crate rejects, so
`Regex::new` always fails and the mapped error is propagated with `?`:
every call with an existing config file returns `Err`, and the capture
branch below it is dead code. -/
def read_grub_cmdline (file : Option (List String)) : Except GrubError String :=
  match file with
  | none => .ok ""
  | some _ => .error .regexBackreference

/-- The write regex
`(?m)^(?P<prefix>\s*GRUB_CMDLINE_LINUX_DEFAULT\s*=\s*["'])(?P<params>.*?)(?P<suffix>["']\s*)$`
applied to one line: the suffix is one quote followed by only trailing
whitespace, so the params group runs to the last quote of the line.
Returns `(prefix, params, suffix)`. -/
def writeCmdlineLine (line : String) : Option (List Char × List Char × List Char) :=
  match parseAssign line.data with
  | some (pre, _, rest) =>
    let revTrail := rest.reverse.takeWhile (fun c => c.isWhitespace)
    let revCore := rest.reverse.dropWhile (fun c => c.isWhitespace)
    match revCore with
    | q2 :: revParams =>
      if isQuote q2 then some (pre, revParams.reverse, q2 :: revTrail.reverse) else none
    | [] => none
  | none => none

/-- `Regex::replace`: rewrite the first matching line as
`prefix ++ new_params ++ suffix`, leaving every other line untouched. -/
def replaceFirstLine (content : List String) (s : String) : List String :=
  match content with
  | [] => []
  | line :: rest =>
    match writeCmdlineLine line with
    | some (pre, _, suf) => String.mk (pre ++ s.data ++ suf) :: rest
    | none => line :: replaceFirstLine rest s

/-- The rewrite `write_grub_cmdline` applies to an existing file's lines
(its regex has no backreference and does compile): replace the matched
quoted payload in place, or append a fresh correctly quoted line
(`content.push_str("\nKEY=\"…\"\n")`, i.e. two extra lines, the second
empty) when no line matches. -/
def applyWriteRegex (content : List String) (s : String) : List String :=
  if content.any (fun line => (writeCmdlineLine line).isSome) then replaceFirstLine content s
  else content ++ ["GRUB_CMDLINE_LINUX_DEFAULT=" ++ String.mk [dqChar] ++ s ++ String.mk [dqChar], ""]

/-- `write_grub_cmdline` (grub.rs:47-69): `NotFound` when the file is
missing, otherwise rewrite the content. -/
def write_grub_cmdline (file : Option (List String)) (s : String) :
    Except GrubError (List String) :=
  match file with
  | none => .error .grubFileNotFound
  | some content => .ok (applyWriteRegex content s)

/-- `GrubConfig::add_parameters` (grub.rs:78-122) over the config file
(`none` = missing).  The regex error from `read_grub_cmdline` propagates
via `?`, so the reconcile/serialise path is reached only when the file is
missing.  The `create_backup()` call before a non-dry-run write copies
the file aside when it exists (never changing the config content) and
returns the original path when it does not, so it succeeds on every
modelled path and does not appear in the state. -/
def add_parameters (file : Option (List String)) (paramsToAdd : List String) (dryRun : Bool) :
    Except GrubError (Option (List String) × Bool) :=
  match read_grub_cmdline file with
  | .error e => .error e
  | .ok cmdline =>
    let currentParams := dedupList (splitWs cmdline)
    let res := addParamsSet currentParams paramsToAdd
    if res.2 then
      if dryRun then .ok (file, true)
      else
        match write_grub_cmdline file (serializeParams res.1) with
        | .error e => .error e
        | .ok newContent => .ok (some newContent, true)
    else .ok (file, false)

/-- `GrubConfig::remove_parameters` (grub.rs:124-168), same structure as
`add_parameters`. -/
def remove_parameters (file : Option (List String)) (paramsToRemove : List String)
    (dryRun : Bool) : Except GrubError (Option (List String) × Bool) :=
  match read_grub_cmdline file with
  | .error e => .error e
  | .ok cmdline =>
    let currentParams := dedupList (splitWs cmdline)
    let res := removeParamsSet currentParams paramsToRemove
    if res.2 then
      if dryRun then .ok (file, true)
      else
        match write_grub_cmdline file (serializeParams res.1) with
        | .error e => .error e
        | .ok newContent => .ok (some newContent, true)
    else .ok (file, false)

end GrubConfig

namespace SystemdBootConfig

/-- `SystemdBootConfig::add_parameters`: warns that the backend is not
fully implemented, then returns `Ok(true)` under dry-run ("assume change
would happen") and the placeholder `Ok(false)` otherwise.  It never
returns an error. -/
def add_parameters (params : List String) (dryRun : Bool) : Except String Bool :=
  if dryRun then .ok true else .ok false

/-- `SystemdBootConfig::remove_parameters`: same placeholder shape as
`add_parameters`. -/
def remove_parameters (params : List String) (dryRun : Bool) : Except String Bool :=
  if dryRun then .ok true else .ok false

end SystemdBootConfig

/-! ## Filesystem model -/

/-- A filesystem: association list from paths to file contents, most
recent write first. -/
abbrev FS : Type := List (String × String)

/-- Read a file's contents. -/
def fsRead (fs : FS) (p : String) : Option String :=
  match fs with
  | [] => none
  | e :: rest => if e.1 == p then some e.2 else fsRead rest p

/-- Does the path exist? -/
def fsExists (fs : FS) (p : String) : Bool := (fsRead fs p).isSome

/-- Create or overwrite a file. -/
def fsWrite (fs : FS) (p v : String) : FS := (p, v) :: fs

/-- Delete a file. -/
def fsRemove (fs : FS) (p : String) : FS := fs.filter (fun e => !(e.1 == p))

/-- `fs::rename src dst`: dst takes src's contents, src disappears. -/
def fsRename (fs : FS) (src dst : String) : FS :=
  fsWrite (fsRemove fs src) dst ((fsRead fs src).getD "")

/-! ## The change log (`src/core/state.rs`) -/

/-- The `Change` enum: one recorded, reversible mutation. -/
inductive Change where
  | fileModified (path backupPath : String)
  | kernelParamAdded (parameter bootloader : String)
  | kernelParamRemoved (parameter bootloader : String) (originalValue : Option String)
  | moduleLoaded (name configPath : String) (backupPath : Option String)
  | driverBound (deviceBdf newDriver : String) (originalDriver : Option String)
  | driverUnbound (deviceBdf : String) (originalDriver : Option String)
deriving DecidableEq, Repr

/-- Observable effect of undoing one change: a file restore, a file
removal, or a report that a manual action is required. -/
inductive UndoAction where
  | restoreFile (backupPath path : String)
  | removeFile (path : String)
  | manualStep (message : String)
deriving DecidableEq, Repr

/-- `StateTracker::undo_change`: the filesystem after the undo and the
actions it performed.  Informational prints are not modelled; the
"Manual action needed…" / "…cannot automatically rebind." reports are.
In this model the file operations on existing files succeed; every match
arm of the source then returns `Ok(())`. -/
def undo_change (fs : FS) (c : Change) : FS × List UndoAction :=
  match c with
  | .fileModified path backupPath =>
    if fsExists fs backupPath then
      (fsRename fs backupPath path, [.restoreFile backupPath path])
    else
      (fs, [])
  | .kernelParamAdded parameter bootloader =>
    (fs, [.manualStep ("Remove kernel parameter " ++ parameter ++ " for " ++ bootloader ++
      " bootloader and update.")])
  | .kernelParamRemoved parameter bootloader _ =>
    (fs, [.manualStep ("Restore kernel parameter " ++ parameter ++ " for " ++ bootloader ++
      " bootloader and update.")])
  | .moduleLoaded _ configPath backupPath =>
    match backupPath with
    | some bp =>
      if fsExists fs bp then (fsRename fs bp configPath, [.restoreFile bp configPath])
      else (fsRemove fs configPath, [.removeFile configPath])
    | none =>
      if fsExists fs configPath then (fsRemove fs configPath, [.removeFile configPath])
      else (fs, [])
  | .driverBound deviceBdf _ originalDriver =>
    match originalDriver with
    | some _ => (fs, [.manualStep "Manual action needed or integrate with driver binding logic."])
    | none => (fs, [.manualStep ("Original driver for " ++ deviceBdf ++
        " unknown, cannot automatically rebind.")])
  | .driverUnbound deviceBdf originalDriver =>
    match originalDriver with
    | some _ => (fs, [.manualStep "Manual action needed or integrate with driver binding logic."])
    | none => (fs, [.manualStep ("Original driver for " ++ deviceBdf ++
        " unknown, cannot automatically rebind.")])

/-- The `while let Some(change) = self.changes.pop()` loop of
`rollback_all`, parameterised by the outcome of each undo attempt (the
undo touches ambient system state; its result is what the loop observes).
Returns the remaining log after the loop, the changes processed in
processing order, and the error messages pushed, in push order. -/
def rollback_process (undo : Change → Except String Unit) (cs : List Change) :
    List Change × List Change × List String :=
  match h : cs.getLast? with
  | none => (cs, [], [])
  | some c =>
    let r := rollback_process undo cs.dropLast
    (r.1, c :: r.2.1,
      (match undo c with
       | .ok _ => []
       | .error e => ["  Rollback failed: " ++ e]) ++ r.2.2)
termination_by cs.length
decreasing_by
  simp only [List.length_dropLast]
  have hne : cs ≠ [] := by
    intro hnil
    subst hnil
    simp [List.getLast?] at h
  have hpos : 0 < cs.length := List.length_pos.mpr hne
  omega

/-- Everything `StateTracker::rollback_all` does after the loop: the
in-memory log it keeps, the log it persists via `save_state`, the trace
and errors of the loop, and the overall result (an aggregated error when
any undo failed). -/
structure RollbackOutcome where
  finalChanges : List Change
  persisted : List Change
  trace : List Change
  errors : List String
  result : Except String Unit

/-- `StateTracker::rollback_all`, with the per-change undo outcome
supplied as a function and `save_state` assumed to succeed. -/
def rollback_all (undo : Change → Except String Unit) (changes : List Change) :
    RollbackOutcome :=
  let r := rollback_process undo changes
  { finalChanges := r.1
    persisted := r.1
    trace := r.2.1
    errors := r.2.2
    result :=
      if r.2.2.isEmpty then .ok ()
      else .error ("Rollback process completed with errors:\n" ++
        String.intercalate "\n" r.2.2) }

/-! ## The device binder (`src/core/vfio.rs`) -/

/-- A PCI device as the binder sees it: opaque BDF key plus sysfs
location, with the currently attached driver if any. -/
structure PciDevice where
  bdf : String
  sysfsPath : String
  driver : Option String

namespace VfioManager

/-- `VfioManager::bind_device`: the writes it performs (path, data) in
order, and its result.  `dry_run` returns before touching anything.
Writes to control files that exist succeed; the absent bind control file
is a `NotFound` error, while absent unbind/override files are skipped
with a warning. -/
def bind_device (fs : FS) (device : PciDevice) (dryRun : Bool) :
    List (String × String) × Except String Unit :=
  let driverOverridePath := device.sysfsPath ++ "/driver_override"
  let unbindPath := device.sysfsPath ++ "/driver/unbind"
  let bindPath := "/sys/bus/pci/drivers/vfio-pci/bind"
  if dryRun then ([], .ok ())
  else
    let w1 : List (String × String) :=
      match device.driver with
      | some _ => if fsExists fs unbindPath then [(unbindPath, device.bdf)] else []
      | none => []
    let w2 : List (String × String) :=
      if fsExists fs driverOverridePath then [(driverOverridePath, "vfio-pci")] else []
    if fsExists fs bindPath then (w1 ++ w2 ++ [(bindPath, device.bdf)], .ok ())
    else (w1 ++ w2, .error "vfio-pci bind path not found. Is vfio-pci module loaded?")

/-- `VfioManager::unbind_device`: same shape; the absent global
`drivers_probe` control file is fatal. -/
def unbind_device (fs : FS) (device : PciDevice) (dryRun : Bool) :
    List (String × String) × Except String Unit :=
  let vfioUnbindPath := "/sys/bus/pci/drivers/vfio-pci/unbind"
  let driverOverridePath := device.sysfsPath ++ "/driver_override"
  let probePath := "/sys/bus/pci/drivers_probe"
  if dryRun then ([], .ok ())
  else
    let w1 : List (String × String) :=
      if fsExists fs vfioUnbindPath then [(vfioUnbindPath, device.bdf)] else []
    let w2 : List (String × String) :=
      if fsExists fs driverOverridePath then [(driverOverridePath, "")] else []
    if fsExists fs probePath then (w1 ++ w2 ++ [(probePath, device.bdf)], .ok ())
    else (w1 ++ w2, .error "drivers_probe path not found")

end VfioManager

/-! ## The backup helper (`src/utils/mod.rs`) -/

/-- Is a character not the path separator? -/
def nonSep (c : Char) : Bool := !(c == '/')

/-- `Path::file_name().unwrap_or_default()`: the component after the last
separator (paths without a trailing separator, the case the tool uses). -/
def pathFileName (p : String) : String :=
  String.mk (p.data.reverse.takeWhile nonSep).reverse

/-- `Path::with_file_name(n)`: keep everything up to and including the
last separator, then the new name. -/
def pathWithFileName (p n : String) : String :=
  String.mk ((p.data.reverse.dropWhile nonSep).reverse ++ n.data)

/-- The directory part of a path (everything up to and including the last
separator). -/
def pathDirOf (p : String) : String :=
  String.mk (p.data.reverse.dropWhile nonSep).reverse

/-- `create_timestamped_backup`: a missing file is "backed up" by
returning the original path with no copy; an existing file is copied to a
sibling named `<file>.backup_<timestamp>`.  The wall-clock timestamp is
an input. -/
def create_timestamped_backup (fs : FS) (filePath : String) (timestamp : String) :
    FS × Except String String :=
  if fsExists fs filePath then
    let backupFilename := pathFileName filePath ++ ".backup_" ++ timestamp
    let backupPath := pathWithFileName filePath backupFilename
    (fsWrite fs backupPath ((fsRead fs filePath).getD ""), .ok backupPath)
  else
    (fs, .ok filePath)

/-! ## General list helpers -/

theorem takeWhile_append_all {α : Type} {p : α → Bool} (l₁ l₂ : List α)
    (h : ∀ c ∈ l₁, p c = true) :
    (l₁ ++ l₂).takeWhile p = l₁ ++ l₂.takeWhile p := by
  induction l₁ with
  | nil => rfl
  | cons a as ih =>
    simp only [List.cons_append, List.takeWhile_cons, h a (by simp)]
    rw [ih (fun c hc => h c (by simp [hc]))]
    simp

theorem dropWhile_append_all {α : Type} {p : α → Bool} (l₁ l₂ : List α)
    (h : ∀ c ∈ l₁, p c = true) :
    (l₁ ++ l₂).dropWhile p = l₂.dropWhile p := by
  induction l₁ with
  | nil => rfl
  | cons a as ih =>
    simp only [List.cons_append, List.dropWhile_cons, h a (by simp)]
    exact ih (fun c hc => h c (by simp [hc]))

theorem takeWhile_of_dropWhile_self {α : Type} (p : α → Bool) (l : List α) :
    (l.dropWhile p).takeWhile p = [] := by
  induction l with
  | nil => rfl
  | cons a as ih =>
    by_cases h : p a = true
    · simpa [List.dropWhile_cons, h] using ih
    · simp only [Bool.not_eq_true] at h
      simp [List.dropWhile_cons, List.takeWhile_cons, h]

/-! ## Rollback loop lemmas -/

theorem rollback_process_nil (u : Change → Except String Unit) :
    rollback_process u [] = ([], [], []) := by
  rw [rollback_process]
  simp

theorem rollback_process_concat (u : Change → Except String Unit) (l : List Change) (c : Change) :
    rollback_process u (l ++ [c]) =
      ((rollback_process u l).1, c :: (rollback_process u l).2.1,
        (match u c with
         | .ok _ => []
         | .error e => ["  Rollback failed: " ++ e]) ++ (rollback_process u l).2.2) := by
  rw [rollback_process]
  simp only [List.dropLast_concat]
  split
  · rename_i h
    simp [List.getLast?_concat] at h
  · rename_i c' h
    rw [List.getLast?_concat] at h
    cases h
    rfl

theorem rollback_process_remaining (u : Change → Except String Unit) (cs : List Change) :
    (rollback_process u cs).1 = [] := by
  induction cs using List.reverseRecOn with
  | nil => rw [rollback_process_nil]
  | append_singleton l c ih => rw [rollback_process_concat]; exact ih

theorem rollback_process_trace (u : Change → Except String Unit) (cs : List Change) :
    (rollback_process u cs).2.1 = cs.reverse := by
  induction cs using List.reverseRecOn with
  | nil => rw [rollback_process_nil]; rfl
  | append_singleton l c ih => rw [rollback_process_concat]; simp [ih]

theorem rollback_process_errors (u : Change → Except String Unit) (cs : List Change) :
    (rollback_process u cs).2.2 = cs.reverse.filterMap (fun c =>
      match u c with
      | .ok _ => none
      | .error e => some ("  Rollback failed: " ++ e)) := by
  induction cs using List.reverseRecOn with
  | nil => rw [rollback_process_nil]; rfl
  | append_singleton l c ih =>
    rw [rollback_process_concat]
    simp only [List.reverse_append, List.reverse_cons, List.reverse_nil, List.nil_append,
      List.cons_append, List.filterMap_cons, ih]
    cases u c <;> simp

/-- C2: `rollback_all` undoes recorded changes in strict reverse
chronological order: the sequence of changes handed to the undo handlers
is exactly the reverse of the order in which they were appended (so a log
built as A, B, C is undone C, B, A). -/
theorem c2_rollback_reverse_order (undo : Change → Except String Unit) (changes : List Change) :
    (rollback_all undo changes).trace = changes.reverse := by
  simpa [rollback_all] using rollback_process_trace undo changes

/-- C5: during `rollback_all` a failed undo never halts the loop — every
change is still processed (the trace covers the whole reversed log), every
undo error is collected (the error list is exactly the failures, in
processing order), the result aggregates them (it is `ok` iff there was no
failure), and the drained log is what gets persisted whether or not any
undo failed. -/
theorem c5_rollback_continue_on_error (undo : Change → Except String Unit)
    (changes : List Change) :
    (rollback_all undo changes).trace = changes.reverse ∧
    (rollback_all undo changes).errors = changes.reverse.filterMap (fun c =>
      match undo c with
      | .ok _ => none
      | .error e => some ("  Rollback failed: " ++ e)) ∧
    (rollback_all undo changes).persisted = [] ∧
    (rollback_all undo changes).finalChanges = [] ∧
    ((rollback_all undo changes).result = .ok () ↔ (rollback_all undo changes).errors = []) := by
  refine ⟨by simpa [rollback_all] using rollback_process_trace undo changes,
    by simpa [rollback_all] using rollback_process_errors undo changes,
    by simp [rollback_all, rollback_process_remaining],
    by simp [rollback_all, rollback_process_remaining], ?_⟩
  simp only [rollback_all]
  by_cases h : (rollback_process undo changes).2.2 = []
  · simp [h]
  · simp [h, List.isEmpty_iff]

/-- C6: the systemd-boot backend's `add_parameters` and
`remove_parameters` never return a "not supported" error — for every
parameter list they report success, `Ok(true)` under dry-run and the
placeholder `Ok(false)` otherwise.  This records the code's behaviour at
the claim's failing inputs; the claim (and the spec's stated intent) is
that these calls return an explicit "not supported" signal. -/
theorem c6_systemd_boot_reports_success (params : List String) (dryRun : Bool) :
    SystemdBootConfig.add_parameters params dryRun = .ok dryRun ∧
    SystemdBootConfig.remove_parameters params dryRun = .ok dryRun := by
  cases dryRun <;> exact ⟨rfl, rfl⟩

/-- C7 counterexample: undoing a `DriverBound` change whose original
driver is known ("nvidia") still only emits a manual-step report and
leaves the filesystem untouched — the Device Binder is not re-invoked, so
the claim that a manual step is reported *only* when the original driver
is unknown is false. -/
theorem c7_counterexample :
    undo_change [] (Change.driverBound "0000:01:00.0" "vfio-pci" (some "nvidia")) =
      ([], [UndoAction.manualStep "Manual action needed or integrate with driver binding logic."]) := rfl

/-- C7 amended: undoing a `DriverBound` or `DriverUnbound` change during
rollback never re-invokes the Device Binder; it performs no filesystem
action and reports a single manual step whether or not the original
driver is recorded (the recorded driver only changes the message). -/
theorem c7_amended_driver_undo_is_manual (fs : FS) (bdf drv : String) (orig : Option String) :
    (∃ msg, undo_change fs (Change.driverBound bdf drv orig) = (fs, [UndoAction.manualStep msg])) ∧
    (∃ msg, undo_change fs (Change.driverUnbound bdf orig) = (fs, [UndoAction.manualStep msg])) := by
  cases orig <;> exact ⟨⟨_, rfl⟩, ⟨_, rfl⟩⟩

/-- C8: the Device Binder's `bind_device` and `unbind_device` with
`dry_run = true` perform zero writes to any control file and return
success, for every device and every filesystem state — in particular also
when the target driver's bind control file does not exist. -/
theorem c8_dry_run_no_writes (fs : FS) (device : PciDevice) :
    VfioManager.bind_device fs device true = ([], .ok ()) ∧
    VfioManager.unbind_device fs device true = ([], .ok ()) := ⟨rfl, rfl⟩

/-! ## Key identity lemmas -/

theorem keyOf_data (p : String) : (keyOf p).data = p.data.takeWhile nonEq := rfl

theorem keyOf_nil_case (p : String) (hdrop : p.data.dropWhile nonEq = []) : p = keyOf p := by
  have hsplit := List.takeWhile_append_dropWhile (p := nonEq) (l := p.data)
  rw [hdrop, List.append_nil] at hsplit
  cases p with
  | mk d => exact congrArg String.mk hsplit.symm

theorem keyOf_cons_case (p : String) (c : Char) (rest : List Char)
    (hdrop : p.data.dropWhile nonEq = c :: rest) :
    strStartsWith p (keyOf p ++ "=") = true := by
  have hsplit := List.takeWhile_append_dropWhile (p := nonEq) (l := p.data)
  have hc : nonEq c = false := by
    have := List.head?_dropWhile_not nonEq p.data
    rw [hdrop] at this
    simpa using this
  have hceq : c = '=' := by
    simpa [nonEq] using hc
  subst hceq
  have hdata : p.data = (keyOf p).data ++ '=' :: rest := by
    rw [keyOf_data, ← hdrop]
    exact hsplit.symm
  have hkeyeq : (keyOf p ++ "=").data = (keyOf p).data ++ ['='] := by
    rw [String.data_append]
  simp only [strStartsWith, hkeyeq, hdata]
  rw [List.isPrefixOf_iff_prefix]
  simp

theorem keyOf_cases (p : String) :
    p = keyOf p ∨ strStartsWith p (keyOf p ++ "=") = true := by
  cases hdrop : p.data.dropWhile nonEq with
  | nil => exact Or.inl (keyOf_nil_case p hdrop)
  | cons c rest => exact Or.inr (keyOf_cons_case p c rest hdrop)

theorem retain_pred_of_same_key (param p : String) (hkey : keyOf p = keyOf param) :
    (!(strStartsWith p (keyOf param ++ "=")) && !(p == keyOf param)) = false := by
  rcases keyOf_cases p with h | h
  · have : (p == keyOf param) = true := by
      rw [← hkey, ← h]
      simp
    simp [this]
  · rw [hkey] at h
    simp [h]

theorem param_not_mem_retain (param : String) (l : List String) :
    param ∉ l.filter (fun q => !(strStartsWith q (keyOf param ++ "=")) && !(q == keyOf param)) := by
  intro hmem
  have := List.of_mem_filter hmem
  rw [retain_pred_of_same_key param param rfl] at this
  exact Bool.false_ne_true this

theorem mem_retain_key_ne (param p : String) (l : List String)
    (hp : p ∈ l.filter (fun q => !(strStartsWith q (keyOf param ++ "=")) && !(q == keyOf param))) :
    keyOf p ≠ keyOf param := by
  intro hkey
  have := List.of_mem_filter hp
  rw [retain_pred_of_same_key param p hkey] at this
  exact Bool.false_ne_true this

theorem addStep_fst (cur : List String) (b : Bool) (param : String) :
    (addStep (cur, b) param).1 =
      cur.filter (fun q => !(strStartsWith q (keyOf param ++ "=")) && !(q == keyOf param)) ++ [param] := by
  simp only [addStep, insertParam]
  rw [if_neg (param_not_mem_retain param cur)]

/-- C3: `add_parameters` removes any existing parameter with the same KEY
even when the value differs and then inserts the requested one: after
adding `param`, every element whose KEY equals `param`'s KEY is `param`
itself; in particular adding `iommu=pt` to a set containing `iommu=on`
leaves exactly one parameter with KEY `iommu`, valued `pt`. -/
theorem c3_add_replaces_same_key :
    (∀ param current p, p ∈ (addParamsSet current [param]).1 → keyOf p = keyOf param → p = param) ∧
    (∀ current, "iommu=on" ∈ current →
      (addParamsSet current ["iommu=pt"]).1.filter (fun q => keyOf q == "iommu") = ["iommu=pt"]) := by
  constructor
  · intro param current p hp hkey
    simp only [addParamsSet, List.foldl_cons, List.foldl_nil] at hp
    rw [addStep_fst] at hp
    rcases List.mem_append.mp hp with hp | hp
    · exact absurd hkey (mem_retain_key_ne param p current hp)
    · simpa using hp
  · intro current _
    simp only [addParamsSet, List.foldl_cons, List.foldl_nil]
    rw [addStep_fst]
    rw [List.filter_append]
    have h1 : (current.filter
        (fun q => !(strStartsWith q (keyOf "iommu=pt" ++ "=")) && !(q == keyOf "iommu=pt"))).filter
          (fun q => keyOf q == "iommu") = [] := by
      rw [List.filter_eq_nil_iff]
      intro a ha hkey
      have hne := mem_retain_key_ne "iommu=pt" a current ha
      have : keyOf a = "iommu" := by simpa using hkey
      apply hne
      rw [this]
      rfl
    rw [h1]
    rfl

/-- C3 witness: the theorem applied to the concrete set
`{quiet, iommu=on}`. -/
theorem c3_witness :
    "iommu=on" ∈ ["quiet", "iommu=on"] ∧
    (addParamsSet ["quiet", "iommu=on"] ["iommu=pt"]).1.filter (fun q => keyOf q == "iommu") =
      ["iommu=pt"] :=
  ⟨by decide, c3_add_replaces_same_key.2 ["quiet", "iommu=on"] (by decide)⟩

/-! ## Removal loop lemmas -/

theorem removeFold_fst (requested : List String) (cur : List String) (b : Bool) :
    (requested.foldl removeStep (cur, b)).1 =
      cur.filter (fun p => requested.all (fun r => !(p == r) && !(keyOf p == keyOf r))) := by
  induction requested generalizing cur b with
  | nil => simp
  | cons r rs ih =>
    simp only [List.foldl_cons, removeStep]
    rw [ih]
    rw [List.filter_filter]
    apply List.filter_congr
    intro p _
    simp [List.all_cons, Bool.and_comm]

theorem removeFold_snd (requested : List String) (cur : List String) (b : Bool) :
    (requested.foldl removeStep (cur, b)).2 =
      (b || decide ((requested.foldl removeStep (cur, b)).1.length < cur.length)) := by
  induction requested generalizing cur b with
  | nil => simp
  | cons r rs ih =>
    simp only [List.foldl_cons, removeStep]
    rw [ih]
    set cur2 := cur.filter (fun p => !(p == r) && !(keyOf p == keyOf r)) with hcur2
    have hlen2 : cur2.length ≤ cur.length := List.length_filter_le _ _
    have hlenf : (rs.foldl removeStep (cur2, b || decide (cur2.length < cur.length))).1.length ≤ cur2.length := by
      rw [removeFold_fst]
      exact List.length_filter_le _ _
    set L := (rs.foldl removeStep (cur2, b || decide (cur2.length < cur.length))).1.length with hL
    have hiff : (L < cur.length) ↔ (cur2.length < cur.length ∨ L < cur2.length) := by omega
    rw [Bool.or_assoc]
    congr 1
    rw [decide_eq_decide.mpr hiff, Bool.decide_or]

/-- C9 (code bug recorded): the removal loop itself (grub.rs:131-147)
drops exactly those parameters whose exact string or KEY matches some
requested entry and sets `changed = true` iff the parameter set strictly
shrank — but the `remove_parameters` method never returns that flag when
the config file exists: the read regex's `\1` backreference is rejected
by the regex crate, so every such call returns the propagated regex
error instead of the claimed changed report. -/
theorem c9_remove_parameters_behavior (current requested : List String) :
    (removeParamsSet current requested).1 =
      current.filter (fun p => requested.all (fun r => !(p == r) && !(keyOf p == keyOf r))) ∧
    ((removeParamsSet current requested).2 = true ↔
      (removeParamsSet current requested).1.length < current.length) ∧
    (∀ (content : List String) (dryRun : Bool),
      GrubConfig.remove_parameters (some content) requested dryRun =
        .error .regexBackreference) := by
  refine ⟨removeFold_fst requested current false, ?_, fun _ _ => rfl⟩
  rw [removeParamsSet, removeFold_snd]
  simp

/-! ## Filesystem and path lemmas -/

theorem fsRead_write_self (fs : FS) (p v : String) : fsRead (fsWrite fs p v) p = some v := by
  simp [fsWrite, fsRead]

theorem fsRead_write_other (fs : FS) (p v q : String) (h : q ≠ p) :
    fsRead (fsWrite fs p v) q = fsRead fs q := by
  have : (p == q) = false := by simpa using fun hpq => h hpq.symm
  simp [fsWrite, fsRead, this]

theorem fileName_withFileName (p n : String) (hn : ∀ c ∈ n.data, nonSep c = true) :
    pathFileName (pathWithFileName p n) = n ∧
    pathDirOf (pathWithFileName p n) = pathDirOf p := by
  have hn' : ∀ c ∈ n.data.reverse, nonSep c = true := by
    intro c hc
    exact hn c (List.mem_reverse.mp hc)
  have hdata : (pathWithFileName p n).data.reverse
      = n.data.reverse ++ p.data.reverse.dropWhile nonSep := by
    simp [pathWithFileName, List.reverse_append]
  constructor
  · have ht : (pathWithFileName p n).data.reverse.takeWhile nonSep = n.data.reverse := by
      rw [hdata, takeWhile_append_all _ _ hn', takeWhile_of_dropWhile_self]
      simp
    cases n with
    | mk d => simp [pathFileName, ht]
  · have hd : (pathWithFileName p n).data.reverse.dropWhile nonSep
        = p.data.reverse.dropWhile nonSep := by
      rw [hdata, dropWhile_append_all _ _ hn', List.dropWhile_idempotent]
    simp [pathDirOf, hd]

/-- C10: when the file does not exist, `create_timestamped_backup`
returns the input path itself and leaves the filesystem untouched; when
it exists, the call returns a backup path in the same directory whose
name is the original name plus `.backup_<timestamp>`, the backup's
contents are byte-identical to the original's, and no other path is
affected. -/
theorem c10_create_timestamped_backup (fs : FS) (p ts : String)
    (hts : ∀ c ∈ ts.data, nonSep c = true) :
    (fsExists fs p = false → create_timestamped_backup fs p ts = (fs, .ok p)) ∧
    (fsExists fs p = true →
      (create_timestamped_backup fs p ts).2 =
        .ok (pathWithFileName p (pathFileName p ++ ".backup_" ++ ts)) ∧
      fsRead (create_timestamped_backup fs p ts).1
          (pathWithFileName p (pathFileName p ++ ".backup_" ++ ts)) = fsRead fs p ∧
      (∀ q, q ≠ pathWithFileName p (pathFileName p ++ ".backup_" ++ ts) →
        fsRead (create_timestamped_backup fs p ts).1 q = fsRead fs q) ∧
      pathDirOf (pathWithFileName p (pathFileName p ++ ".backup_" ++ ts)) = pathDirOf p ∧
      pathFileName (pathWithFileName p (pathFileName p ++ ".backup_" ++ ts)) =
        pathFileName p ++ ".backup_" ++ ts) := by
  have hbackupword : ∀ c ∈ ".backup_".data, nonSep c = true := by decide
  have hname : ∀ c ∈ (pathFileName p ++ ".backup_" ++ ts).data, nonSep c = true := by
    intro c hc
    rw [String.data_append, String.data_append] at hc
    rcases List.mem_append.mp hc with hc | hc
    · rcases List.mem_append.mp hc with hc | hc
      · exact List.mem_takeWhile_imp (List.mem_reverse.mp hc)
      · exact hbackupword c hc
    · exact hts c hc
  have hfw := fileName_withFileName p (pathFileName p ++ ".backup_" ++ ts) hname
  constructor
  · intro h
    simp [create_timestamped_backup, h]
  · intro h
    refine ⟨by simp [create_timestamped_backup, h], ?_, ?_, hfw.2, hfw.1⟩
    · simp only [create_timestamped_backup, h, if_true]
      rw [fsRead_write_self]
      cases hread : fsRead fs p with
      | none => simp [fsExists, hread] at h
      | some v => simp [hread]
    · intro q hq
      simp only [create_timestamped_backup, h, if_true]
      exact fsRead_write_other fs _ _ q hq

/-- C10 witness: the theorem applied to a one-file filesystem. -/
theorem c10_witness :
    fsExists [("/etc/default/grub", "X")] "/etc/default/grub" = true ∧
    fsRead (create_timestamped_backup [("/etc/default/grub", "X")] "/etc/default/grub" "20240101").1
        (pathWithFileName "/etc/default/grub"
          (pathFileName "/etc/default/grub" ++ ".backup_" ++ "20240101")) =
      fsRead [("/etc/default/grub", "X")] "/etc/default/grub" := by
  have h := c10_create_timestamped_backup [("/etc/default/grub", "X")] "/etc/default/grub"
    "20240101" (by decide)
  exact ⟨by decide, (h.2 (by decide)).2.1⟩

/-- C4 (code bug recorded): at the claim's scenario input — a config
file whose line holds the quoted payload `quiet splash` — both
`add_parameters(["iommu=on","amd_iommu=on"], dry_run=false)` and the
subsequent `remove_parameters(["quiet"])` return the regex error (the
`\1` backreference of the read pattern is rejected by the regex crate),
never the claimed rewritten payloads with `changed = true`. -/
theorem c4_scenario_regex_error :
    GrubConfig.add_parameters
      (some ["GRUB_CMDLINE_LINUX_DEFAULT=" ++ String.mk [dqChar] ++ "quiet splash" ++
        String.mk [dqChar]])
      ["iommu=on", "amd_iommu=on"] false = .error .regexBackreference ∧
    GrubConfig.remove_parameters
      (some ["GRUB_CMDLINE_LINUX_DEFAULT=" ++ String.mk [dqChar] ++ "quiet splash" ++
        String.mk [dqChar]])
      ["quiet"] false = .error .regexBackreference := ⟨rfl, rfl⟩

/-- C1 (code bug recorded): `add_parameters` can never produce the
claimed `changed=true`-then-`changed=false` pair.  Whenever the config
file exists, every call — in particular the first of the two — returns
the propagated regex error, because `Regex::new` on the read pattern
fails on the `\1` backreference; the concrete conjunct evaluates the
claim's situation (an existing config file) and yields the error instead
of `Ok(true)`. -/
theorem c1_add_parameters_regex_error :
    (∀ (content : List String) (P : List String) (dryRun : Bool),
      GrubConfig.add_parameters (some content) P dryRun = .error .regexBackreference) ∧
    GrubConfig.add_parameters
      (some ["GRUB_CMDLINE_LINUX_DEFAULT=" ++ String.mk [dqChar] ++ String.mk [dqChar]])
      ["iommu=pt"] false = .error .regexBackreference := ⟨fun _ _ _ => rfl, rfl⟩

